import Mathlib

/-!
Shallow embedding of the exprlib expression engine (src/src/main.c,
src/include/exprlib.h) in Lean 4.

Modelling conventions, fixed once for the whole development:

* C `double` values are modelled as `ℚ`.  Every claim below exercises the
  arithmetic only on values where IEEE double arithmetic is exact and agrees
  with exact rational arithmetic (small integers, one-digit decimals), so the
  rational model is faithful on every input any theorem or witness touches.
  `libm`'s `pow` is modelled by `cpow`, exact on integer exponents (the only
  exponents reachable in the claims).
* The process-wide `EXPRLIB_ERROR` global is threaded explicitly: every
  embedded function takes the current error code and returns the updated one.
* `malloc`/`realloc`/`strdup` failure is environment nondeterminism outside
  the program text; the embedding models the allocation-success behaviour
  (the `EXPRLIB_ERROR_MALLOC_FAILED` branches of the C code are therefore
  not reachable in the model).  Note `create_number_node`,
  `create_variable_node` and `create_operator_node` all begin with
  `EXPRLIB_ERROR = EXPRLIB_SUCCESS`; that reset is kept.
* A failed C `assert` aborts the process; an evaluation outcome of `none`
  models that abort.  With the repository Makefile (`-g`, no `-DNDEBUG`)
  asserts are active.
* The parser in C is a set of mutually recursive functions on a character
  cursor; the embedding uses an explicit fuel parameter for termination,
  with `none` meaning "fuel exhausted" (never a behaviour of the C code:
  every theorem either quantifies over fuel or supplies enough of it).
* The evaluator additionally returns the ordered list of native-function
  names it actually invoked, so that "the native function is (not) invoked"
  is directly observable.  This trace is a pure annotation: it is appended
  exactly where `fn->fn(argv, argc)` executes in C and influences nothing.
-/

/-- The `ExprLibError` enumeration from include/exprlib.h. `synErr` is
`EXPRLIB_ERROR_SYNTAX`; the other constructors keep their C meaning. -/
inductive ExprLibError where
  | success
  | synErr
  | undefinedVariable
  | divisionByZero
  | mallocFailed
  | invalidArgument
  | functionNotFound
  | nullError
  | duplicateFunction
  | unknown
deriving DecidableEq, Repr

/-- AST node (`ExprNode` in exprlib.h).  `num` is `EXPR_NODE_NUMBER`,
`var` is `EXPR_NODE_VARIABLE`, `op` is `EXPR_NODE_OPERATOR`,
`call` is `EXPR_NODE_FUNCTION_CALL`. -/
inductive ExprNode where
  | num (value : ℚ)
  | var (name : String)
  | op (c : Char) (left right : ExprNode)
  | call (name : String) (args : List ExprNode)

/-- A context variable (`ExprLibVariable`): the `double *value` slot is
modelled by the value read through it at evaluation time. -/
structure ExprLibVariable where
  name : String
  value : ℚ

/-- `ExprContext`: caller-owned list of variable bindings.  The C field is
called `variables`; that is a reserved token in Lean, so the field is
`vars` here. -/
structure ExprContext where
  vars : List ExprLibVariable

/-- A registered constant (`ExprLibConstant`). -/
structure ExprLibConstant where
  name : String
  value : ℚ

/-- `ExprLibFnPtr`: a native function takes the argument values and the
current process error code, and either returns (result, updated error) or
aborts on a failed `assert` (`none`). -/
def ExprLibFnPtr : Type := List ℚ → ExprLibError → Option (ℚ × ExprLibError)

/-- A registry entry (the static `ExprLibFunction` struct): name, arity
(`-1` = variadic) and the native callable. -/
structure ExprLibFunction where
  name : String
  arity : Int
  fn : ExprLibFnPtr

/-- The process-wide tables `g_constants` and `g_functions`. -/
structure Globals where
  constants : List ExprLibConstant
  functions : List ExprLibFunction

/-- The empty context. -/
def emptyCtx : ExprContext := ⟨[]⟩

/-- Globals with no constants and no registered functions. -/
def g0 : Globals := ⟨[], []⟩

/-- `find_function`: linear scan of the registry, first match wins. -/
def find_function (name : String) (funcs : List ExprLibFunction) :
    Option ExprLibFunction :=
  funcs.find? (fun f => f.name == name)

/-- `exprlib_register_function`: rejects empty names (`EXPRLIB_ERROR_NULL`;
the `!fn` test cannot fire in the model since Lean functions are total
values), arity below the variadic sentinel (`EXPRLIB_ERROR_INVALID_ARGUMENT`)
and duplicate names (`EXPRLIB_ERROR_DUPLICATE_FUNCTION`), otherwise appends
the entry.  Returns (success flag, registry after the call, error after the
call). -/
def exprlib_register_function (name : String) (arity : Int) (fn : ExprLibFnPtr)
    (funcs : List ExprLibFunction) (err : ExprLibError) :
    Bool × List ExprLibFunction × ExprLibError :=
  if name = "" then (false, funcs, .nullError)
  else if arity < -1 then (false, funcs, .invalidArgument)
  else if funcs.any (fun f => f.name == name) then
    (false, funcs, .duplicateFunction)
  else (true, funcs ++ [⟨name, arity, fn⟩], err)

/-- Truncation toward zero, the semantics of the C cast `(int)x`. -/
def c_trunc (x : ℚ) : Int := if 0 ≤ x then x.floor else -((-x).floor)

/-- The loop `result = 1; for (i = 1; i <= limit; i++) result *= i;`
from `factorial` in main.c. -/
def fact_value (limit : Int) : ℚ :=
  (List.range limit.toNat).foldl (fun acc i => acc * ((i : ℚ) + 1)) 1

/-- `fn_min` from main.c: `assert(n >= 1)` (abort on an empty argument
list), then a linear scan keeping the smaller value. -/
def fn_min : ExprLibFnPtr := fun a err =>
  match a with
  | [] => none
  | x :: xs => some (xs.foldl (fun m v => if v < m then v else m) x, err)

/-- `fn_max` from main.c: `assert(n >= 1)`, then a linear scan keeping the
larger value. -/
def fn_max : ExprLibFnPtr := fun a err =>
  match a with
  | [] => none
  | x :: xs => some (xs.foldl (fun m v => if m < v then v else m) x, err)

/-- `factorial` from main.c: `assert(n == 1)`; negative input sets
`EXPRLIB_ERROR_INVALID_ARGUMENT` and returns 0, otherwise the loop computes
the factorial of the truncated argument. -/
def factorial_fn : ExprLibFnPtr := fun a err =>
  match a with
  | [x] =>
    if x < 0 then some (0, .invalidArgument)
    else some (fact_value (c_trunc x), err)
  | _ => none

/-- `nCr` from main.c: `assert(n == 2)`; invalid bounds set
`EXPRLIB_ERROR_INVALID_ARGUMENT` and return 0, otherwise
`factorial(a)/(factorial(b)*factorial(a-b))` (the inner `factorial` calls
are on non-negative arguments and leave the error untouched). -/
def nCr_fn : ExprLibFnPtr := fun a err =>
  match a with
  | [x, y] =>
    if x < 0 ∨ y < 0 ∨ y > x then some (0, .invalidArgument)
    else some (fact_value (c_trunc x) /
               (fact_value (c_trunc y) * fact_value (c_trunc (x - y))), err)
  | _ => none

/-- `nPr` from main.c: `assert(n == 2)`; invalid bounds set
`EXPRLIB_ERROR_INVALID_ARGUMENT` and return 0, otherwise
`factorial(a)/factorial(a-b)`. -/
def nPr_fn : ExprLibFnPtr := fun a err =>
  match a with
  | [x, y] =>
    if x < 0 ∨ y < 0 ∨ y > x then some (0, .invalidArgument)
    else some (fact_value (c_trunc x) / fact_value (c_trunc (x - y)), err)
  | _ => none

/-- Model of `libm`'s `pow` on rationals: exact for integer exponents (the
only exponents any claim exercises); a non-integer exponent is outside the
rational model and mapped to 0. -/
def cpow (b e : ℚ) : ℚ := if e.den = 1 then b ^ e.num else 0

/-- `fn_pow` from main.c: `assert(n == 2)`, then `pow(a[0], a[1])`. -/
def fn_pow : ExprLibFnPtr := fun a err =>
  match a with
  | [x, y] => some (cpow x y, err)
  | _ => none

/-- The operator switch of the `EXPR_NODE_OPERATOR` case of `evaluate_node`:
applies the operator, setting `EXPRLIB_ERROR_DIVISION_BY_ZERO` on an exactly
zero divisor and `EXPRLIB_ERROR_UNKNOWN` on an unknown operator tag (both
return 0.0 in C). -/
def eval_apply_op (c : Char) (l r : ℚ) (err : ExprLibError) :
    ℚ × ExprLibError :=
  if c = '+' then (l + r, err)
  else if c = '-' then (l - r, err)
  else if c = '*' then (l * r, err)
  else if c = '/' then
    if r = 0 then (0, .divisionByZero) else (l / r, err)
  else if c = '^' then (cpow l r, err)
  else (0, .unknown)

mutual

/-- `evaluate_node` from main.c, with the process error threaded explicitly
and the list of invoked native functions recorded.  Result `none` models an
aborted process (a failed `assert` inside a native function); otherwise the
result is (returned double, error after the call, natives invoked in order).

Faithful details: the Variable case consults constants before context
variables and reads values without touching a non-success error; the
Operator case checks `EXPRLIB_ERROR` after each child and short-circuits;
the FunctionCall case checks arity before evaluating arguments, evaluates
every argument without any error check, and then always invokes the
native function. -/
def evaluate_node (node : ExprNode) (ctx : ExprContext) (g : Globals)
    (err : ExprLibError) : Option (ℚ × ExprLibError × List String) :=
  match node with
  | .num v => some (v, err, [])
  | .var name =>
    match g.constants.find? (fun c => c.name == name) with
    | some c => some (c.value, err, [])
    | none =>
      match ctx.vars.find? (fun v => v.name == name) with
      | some v => some (v.value, err, [])
      | none => some (0, .undefinedVariable, [])
  | .op c left right =>
    match evaluate_node left ctx g err with
    | none => none
    | some (lv, err1, t1) =>
      if err1 ≠ .success then some (0, err1, t1)
      else
        match evaluate_node right ctx g err1 with
        | none => none
        | some (rv, err2, t2) =>
          if err2 ≠ .success then some (0, err2, t1 ++ t2)
          else
            match eval_apply_op c lv rv err2 with
            | (v, err3) => some (v, err3, t1 ++ t2)
  | .call name args =>
    match find_function name g.functions with
    | none => some (0, .unknown, [])
    | some f =>
      if f.arity ≠ -1 ∧ f.arity ≠ (args.length : Int) then
        some (0, .synErr, [])
      else
        match eval_args args ctx g err with
        | none => none
        | some (argv, err1, t1) =>
          match f.fn argv err1 with
          | none => none
          | some (v, err2) => some (v, err2, t1 ++ [name])

/-- The argument loop `for (i = 0; i < argc; ++i) argv[i] =
evaluate_node(...)` of the FunctionCall case: every argument is evaluated
with the then-current error state and no check is made between arguments. -/
def eval_args (args : List ExprNode) (ctx : ExprContext) (g : Globals)
    (err : ExprLibError) : Option (List ℚ × ExprLibError × List String) :=
  match args with
  | [] => some ([], err, [])
  | a :: rest =>
    match evaluate_node a ctx g err with
    | none => none
    | some (v, err1, t1) =>
      match eval_args rest ctx g err1 with
      | none => none
      | some (vs, err2, t2) => some (v :: vs, err2, t1 ++ t2)

end

/-- `exprlib_evaluate`: resets `EXPRLIB_ERROR` to success, then evaluates.
The incoming error code is a parameter only to make the reset visible. -/
def exprlib_evaluate (node : ExprNode) (ctx : ExprContext) (g : Globals)
    (_err : ExprLibError) : Option (ℚ × ExprLibError × List String) :=
  evaluate_node node ctx g .success

/-- ASCII test `c >= '0' && c <= '9'` used throughout the C scanner. -/
def isDigitChar (c : Char) : Bool := 48 ≤ c.toNat && c.toNat ≤ 57

/-- ASCII test `(c >= 'a' && c <= 'z') || (c >= 'A' && c <= 'Z')`. -/
def isAlphaChar (c : Char) : Bool :=
  (97 ≤ c.toNat && c.toNat ≤ 122) || (65 ≤ c.toNat && c.toNat ≤ 90)

/-- The identifier-continuation test of `parse_unary`: letters, digits or
underscore. -/
def isIdentChar (c : Char) : Bool :=
  isAlphaChar c || isDigitChar c || c = '_'

/-- `while (**expr_ptr == ' ') (*expr_ptr)++;` — the inline whitespace skip. -/
def skipSpaces : List Char → List Char
  | [] => []
  | c :: rest => if c = ' ' then skipSpaces rest else c :: rest

/-- Reading `**expr_ptr`: at the end of a C string the cursor reads the
terminating NUL byte. -/
def headD0 (s : List Char) : Char := s.headD (Char.ofNat 0)

/-- `get_precedence` from main.c. -/
def get_precedence (op : Char) : Int :=
  if op = '+' ∨ op = '-' then 10
  else if op = '*' ∨ op = '/' then 20
  else if op = '^' then 30
  else -1

/-- `is_right_associative` from main.c. -/
def is_right_associative (op : Char) : Bool := op == '^'

/-- The integer-part loop of `parse_number`:
`while (digit) { found = true; value = value*10 + digit; }`. -/
def scanInt (v : ℚ) (found : Bool) : List Char → ℚ × Bool × List Char
  | [] => (v, found, [])
  | c :: rest =>
    if isDigitChar c then
      scanInt (v * 10 + ((c.toNat - 48 : Nat) : ℚ)) true rest
    else (v, found, c :: rest)

/-- The fractional loop of `parse_number`:
`frac = 0.1; while (digit) { value += digit * frac; frac *= 0.1; }`. -/
def scanFrac (v frac : ℚ) : List Char → ℚ × List Char
  | [] => (v, [])
  | c :: rest =>
    if isDigitChar c then
      scanFrac (v + ((c.toNat - 48 : Nat) : ℚ) * frac) (frac / 10) rest
    else (v, c :: rest)

/-- `parse_number` from main.c: skip spaces, scan the integer part, and if
the next character is `.` consume it and scan a fractional part — note the
C code enters the fractional branch even when no integer digit was found,
leaving `found` false while still advancing the cursor. -/
def parse_number (s : List Char) : ℚ × Bool × List Char :=
  match scanInt 0 false (skipSpaces s) with
  | (v, found, s1) =>
    match s1 with
    | '.' :: rest =>
      match scanFrac v (1 / 10) rest with
      | (v2, s2) => (v2, found, s2)
    | _ => (v, found, s1)

/-- The identifier scan of `parse_unary`: `while (alpha || digit || '_')`. -/
def scanIdent : List Char → List Char × List Char
  | [] => ([], [])
  | c :: rest =>
    if isIdentChar c then
      match scanIdent rest with
      | (nm, r) => (c :: nm, r)
    else ([], c :: rest)

/-- `is_defined_variable` from main.c: constants first, then the context. -/
def is_defined_variable (name : String) (ctx : ExprContext) (g : Globals) :
    Bool :=
  g.constants.any (fun c => c.name == name) ||
    ctx.vars.any (fun v => v.name == name)

/-- The constant-folding switch of `parse_binary_rhs` (lines 715-755 of
main.c): both operands are literal numbers, so the parser computes the
result immediately; a zero divisor sets `EXPRLIB_ERROR_DIVISION_BY_ZERO`
and fails the parse, an unknown operator sets `EXPRLIB_ERROR_UNKNOWN`
(unreachable, kept for fidelity).  `none` is the C `return NULL`. -/
def fold_binop (op : Char) (l r : ℚ) (err : ExprLibError) :
    Option ℚ × ExprLibError :=
  if op = '+' then (some (l + r), err)
  else if op = '-' then (some (l - r), err)
  else if op = '*' then (some (l * r), err)
  else if op = '/' then
    if r = 0 then (none, .divisionByZero) else (some (l / r), err)
  else if op = '^' then (some (cpow l r), err)
  else (none, .unknown)

mutual

/-- `parse_unary` from main.c.  Outer `none` is fuel exhaustion (not a C
behaviour); otherwise the result is (node or NULL, cursor after the call,
error after the call).  The branches in order: unary minus (rewritten
`0 - operand`; the two node constructors reset the error to success),
parenthesized sub-expression, numeric literal (`create_number_node` resets
the error), identifier — a function call when the next non-space character
is `(`, otherwise a variable that must pass `is_defined_variable` — and
finally the unexpected-token syntax error. -/
def parse_unary (fuel : Nat) (s : List Char) (ctx : ExprContext)
    (g : Globals) (err : ExprLibError) :
    Option (Option ExprNode × List Char × ExprLibError) :=
  match fuel with
  | 0 => none
  | fuel + 1 =>
    let s1 := skipSpaces s
    if headD0 s1 = '-' then
      match parse_unary fuel s1.tail ctx g err with
      | none => none
      | some (operand, s2, err2) =>
        match operand with
        | none => some (none, s2, err2)
        | some operandNode =>
          if err2 ≠ .success then some (none, s2, err2)
          else some (some (.op '-' (.num 0) operandNode), s2, .success)
    else if headD0 s1 = '(' then
      match parse_internal fuel s1.tail ctx g err with
      | none => none
      | some (node, s2, err2) =>
        match node with
        | none => some (none, s2, err2)
        | some innerNode =>
          if err2 ≠ .success then some (none, s2, err2)
          else if headD0 s2 = ')' then some (some innerNode, s2.tail, err2)
          else some (none, s2, .synErr)
    else
      match parse_number s1 with
      | (number, found, s2) =>
        if found then some (some (.num number), s2, .success)
        else if isAlphaChar (headD0 s2) then
          match scanIdent s2 with
          | (nm, s3) =>
            let name := String.mk nm
            let look := skipSpaces s3
            if headD0 look = '(' then
              let s4 := skipSpaces look.tail
              if headD0 s4 = ')' then some (some (.call name []), s4.tail, err)
              else
                match parse_args fuel s4 ctx g err [] with
                | none => none
                | some (argsO, s5, err5) =>
                  match argsO with
                  | none => some (none, s5, err5)
                  | some args =>
                    if headD0 s5 = ')' then
                      some (some (.call name args), s5.tail, err5)
                    else some (none, s5, .synErr)
            else
              if is_defined_variable name ctx g then
                some (some (.var name), s3, .success)
              else some (none, s3, .undefinedVariable)
        else some (none, s2, .synErr)

/-- The `for (;;)` argument loop of the function-call branch of
`parse_unary`: parse an argument (failing out on NULL or error), then at a
comma consume it and continue, at a close parenthesis stop leaving it
unconsumed, anything else is a syntax error. -/
def parse_args (fuel : Nat) (s : List Char) (ctx : ExprContext) (g : Globals)
    (err : ExprLibError) (acc : List ExprNode) :
    Option (Option (List ExprNode) × List Char × ExprLibError) :=
  match fuel with
  | 0 => none
  | fuel + 1 =>
    match parse_internal fuel s ctx g err with
    | none => none
    | some (argO, s1, err1) =>
      match argO with
      | none => some (none, s1, err1)
      | some arg =>
        if err1 ≠ .success then some (none, s1, err1)
        else
          let s2 := skipSpaces s1
          if headD0 s2 = ',' then
            parse_args fuel (skipSpaces s2.tail) ctx g err1 (acc ++ [arg])
          else if headD0 s2 = ')' then some (some (acc ++ [arg]), s2, err1)
          else some (none, s2, .synErr)

/-- `parse_binary_rhs` from main.c: the `while (1)` precedence-climbing
loop, modelled by tail recursion (one fuel unit per iteration).  Faithful
details: a token below the minimum precedence returns `lhs`; the recursion
into the right-hand side always uses `tok_prec + 1`, also when the current
operator is right-associative and the next has equal precedence (in that
case the recursive call returns immediately — the right-associativity
branch of the C code has no effect); when both sides are literal numbers
the pair is folded via `fold_binop` and `create_number_node` resets the
error, otherwise `create_operator_node` builds the node and resets the
error. -/
def parse_binary_rhs (fuel : Nat) (expr_prec : Int) (lhs : ExprNode)
    (s : List Char) (ctx : ExprContext) (g : Globals) (err : ExprLibError) :
    Option (Option ExprNode × List Char × ExprLibError) :=
  match fuel with
  | 0 => none
  | fuel + 1 =>
    let s1 := skipSpaces s
    let op := headD0 s1
    let tok_prec := get_precedence op
    if tok_prec < expr_prec then some (some lhs, s1, err)
    else
      match parse_unary fuel s1.tail ctx g err with
      | none => none
      | some (rhsO, s2, err2) =>
        match rhsO with
        | none => some (none, s2, err2)
        | some rhs0 =>
          let s3 := skipSpaces s2
          let next_prec := get_precedence (headD0 s3)
          let climbed :=
            if tok_prec < next_prec ∨
                (tok_prec = next_prec ∧ is_right_associative op) then
              parse_binary_rhs fuel (tok_prec + 1) rhs0 s3 ctx g err2
            else some (some rhs0, s3, err2)
          match climbed with
          | none => none
          | some (rhsO2, s4, err4) =>
            match rhsO2 with
            | none => some (none, s4, err4)
            | some rhs =>
              match lhs, rhs with
              | .num lv, .num rv =>
                match fold_binop op lv rv err4 with
                | (none, err5) => some (none, s4, err5)
                | (some result, _) =>
                  parse_binary_rhs fuel expr_prec (.num result) s4 ctx g
                    .success
              | lhsN, rhsN =>
                parse_binary_rhs fuel expr_prec (.op op lhsN rhsN) s4 ctx g
                  .success

/-- `parse_internal` from main.c: a unary item followed by the binary loop
with minimum precedence 0. -/
def parse_internal (fuel : Nat) (s : List Char) (ctx : ExprContext)
    (g : Globals) (err : ExprLibError) :
    Option (Option ExprNode × List Char × ExprLibError) :=
  match fuel with
  | 0 => none
  | fuel + 1 =>
    match parse_unary fuel s ctx g err with
    | none => none
    | some (lhsO, s1, err1) =>
      match lhsO with
      | none => some (none, s1, err1)
      | some lhs =>
        if err1 ≠ .success then some (none, s1, err1)
        else parse_binary_rhs fuel 0 lhs s1 ctx g err1

end

/-- `exprlib_parse`: resets `EXPRLIB_ERROR` to success, wraps the cursor
and runs the pipeline.  The incoming error code is a parameter only to make
the reset visible. -/
def exprlib_parse (fuel : Nat) (expression : String) (ctx : ExprContext)
    (g : Globals) (_err : ExprLibError) :
    Option (Option ExprNode × List Char × ExprLibError) :=
  parse_internal fuel expression.toList ctx g .success

/-- Context binding the single variable `z` to 0.0 (the spec's runtime-zero
divisor scenario). -/
def ctxZ : ExprContext := ⟨[⟨"z", 0⟩]⟩

/-- Globals with only the built-in `nCr` registered (arity 2). -/
def gNCr : Globals := ⟨[], [⟨"nCr", 2, nCr_fn⟩]⟩

/-- Globals with only the variadic built-ins `min` and `max` registered. -/
def gMinMax : Globals := ⟨[], [⟨"min", -1, fn_min⟩, ⟨"max", -1, fn_max⟩]⟩

/-- Globals with only the built-in `pow` registered (arity 2). -/
def gPow : Globals := ⟨[], [⟨"pow", 2, fn_pow⟩]⟩

/-- A test callable used as a registry entry in registration scenarios. -/
def constZeroFn : ExprLibFnPtr := fun _ err => some (0, err)

/-- A one-entry registry used in registration scenarios. -/
def funcs0 : List ExprLibFunction := [⟨"f", 1, constZeroFn⟩]

/-- The evaluator's operator switch agrees with the parser's constant-fold
switch on successful folds. -/
theorem eval_apply_op_of_fold_some (op : Char) (a b v : ℚ)
    (err e : ExprLibError) (h : fold_binop op a b err = (some v, e)) :
    eval_apply_op op a b err = (v, e) := by
  unfold fold_binop at h
  unfold eval_apply_op
  split_ifs at h ⊢ <;> simp_all

/-- The evaluator's operator switch agrees with the parser's constant-fold
switch on failing folds (the evaluator returns 0 with the same error). -/
theorem eval_apply_op_of_fold_none (op : Char) (a b : ℚ)
    (err e : ExprLibError) (h : fold_binop op a b err = (none, e)) :
    eval_apply_op op a b err = (0, e) := by
  unfold fold_binop at h
  unfold eval_apply_op
  split_ifs at h ⊢ <;> simp_all

/-- Skipping spaces is the identity when the first character is not a
space. -/
theorem skipSpaces_of_head_ne (s : List Char) (h : headD0 s ≠ ' ') :
    skipSpaces s = s := by
  cases s with
  | nil => rfl
  | cons c t =>
    have hc : c ≠ ' ' := by simpa [headD0] using h
    simp [skipSpaces, hc]

/-- The identifier scan splits the input exactly at the first
non-identifier character. -/
theorem scanIdent_append (name rest : List Char)
    (h1 : ∀ c ∈ name, isIdentChar c = true)
    (h2 : isIdentChar (headD0 rest) = false) :
    scanIdent (name ++ rest) = (name, rest) := by
  induction name with
  | nil =>
    cases rest with
    | nil => rfl
    | cons c t =>
      have hc : isIdentChar c = false := by simpa [headD0] using h2
      simp [scanIdent, hc]
  | cons c nm ih =>
    have hc : isIdentChar c = true := h1 c (by simp)
    have ih2 := ih (fun d hd => h1 d (by simp [hd]))
    simp [scanIdent, hc, ih2]

/-- The integer scan does nothing when the first character is not a
digit. -/
theorem scanInt_no_digit (v : ℚ) (found : Bool) (s : List Char)
    (h : isDigitChar (headD0 s) = false) :
    scanInt v found s = (v, found, s) := by
  cases s with
  | nil => rfl
  | cons c t =>
    have hc : isDigitChar c = false := by simpa [headD0] using h
    simp [scanInt, hc]

/-- A letter is not a space, an operator lead-in, a parenthesis, a dot or a
digit: the character-class facts the parser's branch order relies on. -/
theorem alphaChar_ne (c : Char) (h : isAlphaChar c = true) :
    c ≠ ' ' ∧ c ≠ '-' ∧ c ≠ '(' ∧ c ≠ '.' ∧ isDigitChar c = false := by
  simp only [isAlphaChar, Bool.or_eq_true, Bool.and_eq_true,
    decide_eq_true_eq] at h
  refine ⟨?_, ?_, ?_, ?_, ?_⟩
  · intro hc; subst hc; simp at h
  · intro hc; subst hc; simp at h
  · intro hc; subst hc; simp at h
  · intro hc; subst hc; simp at h
  · simp only [isDigitChar, Bool.and_eq_true, decide_eq_true_eq]
    simp only [Bool.and_eq_false_iff]
    rcases h with ⟨h1, h2⟩ | ⟨h1, h2⟩ <;> right <;> simp <;> omega

/-- The running minimum of `fn_min` is bounded above by its seed and by
every scanned element. -/
theorem foldl_min_le (xs : List ℚ) (x : ℚ) :
    xs.foldl (fun m v => if v < m then v else m) x ≤ x ∧
      ∀ y ∈ xs, xs.foldl (fun m v => if v < m then v else m) x ≤ y := by
  induction xs generalizing x with
  | nil => exact ⟨le_refl x, by simp⟩
  | cons a t ih =>
    have hz : (if a < x then a else x) ≤ x ∧ (if a < x then a else x) ≤ a := by
      by_cases hax : a < x
      · simp [hax]; exact le_of_lt hax
      · simp [hax]; exact le_of_not_lt hax
    have iht := ih (if a < x then a else x)
    refine ⟨?_, ?_⟩
    · rw [List.foldl_cons]
      exact le_trans iht.1 hz.1
    · intro y hy
      rw [List.foldl_cons]
      rcases List.mem_cons.mp hy with rfl | hy2
      · exact le_trans iht.1 hz.2
      · exact iht.2 y hy2

/-- The running minimum of `fn_min` is one of the seed or the scanned
elements. -/
theorem foldl_min_mem (xs : List ℚ) (x : ℚ) :
    xs.foldl (fun m v => if v < m then v else m) x ∈ x :: xs := by
  induction xs generalizing x with
  | nil => simp
  | cons a t ih =>
    rw [List.foldl_cons]
    rcases List.mem_cons.mp (ih (if a < x then a else x)) with h | h
    · by_cases hax : a < x
      · simp only [if_pos hax] at h ⊢; rw [h]; simp
      · simp only [if_neg hax] at h ⊢; rw [h]; simp
    · simp [List.mem_cons]
      right; right; exact h

/-- The running maximum of `fn_max` is bounded below by its seed and by
every scanned element. -/
theorem foldl_max_le (xs : List ℚ) (x : ℚ) :
    x ≤ xs.foldl (fun m v => if m < v then v else m) x ∧
      ∀ y ∈ xs, y ≤ xs.foldl (fun m v => if m < v then v else m) x := by
  induction xs generalizing x with
  | nil => exact ⟨le_refl x, by simp⟩
  | cons a t ih =>
    have hz : x ≤ (if x < a then a else x) ∧ a ≤ (if x < a then a else x) := by
      by_cases hax : x < a
      · simp [hax]; exact le_of_lt hax
      · simp [hax]; exact le_of_not_lt hax
    have iht := ih (if x < a then a else x)
    refine ⟨?_, ?_⟩
    · rw [List.foldl_cons]
      exact le_trans hz.1 iht.1
    · intro y hy
      rw [List.foldl_cons]
      rcases List.mem_cons.mp hy with rfl | hy2
      · exact le_trans hz.2 iht.1
      · exact iht.2 y hy2

/-- The running maximum of `fn_max` is one of the seed or the scanned
elements. -/
theorem foldl_max_mem (xs : List ℚ) (x : ℚ) :
    xs.foldl (fun m v => if m < v then v else m) x ∈ x :: xs := by
  induction xs generalizing x with
  | nil => simp
  | cons a t ih =>
    rw [List.foldl_cons]
    rcases List.mem_cons.mp (ih (if x < a then a else x)) with h | h
    · by_cases hax : x < a
      · simp only [if_pos hax] at h ⊢; rw [h]; simp
      · simp only [if_neg hax] at h ⊢; rw [h]; simp
    · simp [List.mem_cons]
      right; right; exact h

theorem parse_number_at_ident (c : Char) (t : List Char)
    (hsp : c ≠ ' ') (hdot : c ≠ '.') (hdig : isDigitChar c = false) :
    parse_number (c :: t) = (0, false, c :: t) := by
  have hskip : skipSpaces (c :: t) = c :: t :=
    skipSpaces_of_head_ne _ (by simpa [headD0])
  have hscan : scanInt 0 false (c :: t) = (0, false, c :: t) :=
    scanInt_no_digit _ _ _ (by simpa [headD0])
  rw [parse_number, hskip, hscan]
  split
  rename_i v found s1 heq
  injection heq with hv h1
  injection h1 with hf hs
  subst hv; subst hf; subst hs
  split
  · rename_i r heq2
    rw [List.cons.injEq] at heq2
    exact absurd heq2.1 hdot
  · rfl

theorem parse_unary_undefined_identifier (fuel : Nat) (c : Char)
    (nm rest : List Char) (ctx : ExprContext) (g : Globals)
    (err : ExprLibError)
    (halpha : isAlphaChar c = true)
    (hident : ∀ d ∈ c :: nm, isIdentChar d = true)
    (hstop : isIdentChar (headD0 rest) = false)
    (hnp : headD0 (skipSpaces rest) ≠ '(')
    (hundef : is_defined_variable (String.mk (c :: nm)) ctx g = false) :
    parse_unary (fuel + 1) (c :: (nm ++ rest)) ctx g err
      = some (none, rest, .undefinedVariable) := by
  obtain ⟨hsp, hminus, hparen, hdot, hdig⟩ := alphaChar_ne c halpha
  have hskip : skipSpaces (c :: (nm ++ rest)) = c :: (nm ++ rest) :=
    skipSpaces_of_head_ne _ (by simpa [headD0])
  have hnum : parse_number (c :: (nm ++ rest))
      = (0, false, c :: (nm ++ rest)) :=
    parse_number_at_ident c _ hsp hdot hdig
  have hid : scanIdent (c :: (nm ++ rest)) = (c :: nm, rest) := by
    have h := scanIdent_append (c :: nm) rest hident hstop
    simpa using h
  simp only [headD0] at hnp
  rw [parse_unary]
  simp only [hskip, headD0, List.headD_cons, if_neg hminus, if_neg hparen,
    hnum, Bool.false_eq_true, if_false, halpha, if_true, hid,
    if_neg hnp, hundef]

/-- Claim C1 (code bug in the repository).  The precedence table is
`+ - = 10`, `* / = 20`, `^ = 30` and only `^` is flagged right-associative,
and `"2 + 3 * 4"` parses and evaluates to 14.0 as the claim states; but
`"2 ^ 3 ^ 2"` yields 64.0, not the 512.0 the claim requires:
`parse_binary_rhs` recurses with `tok_prec + 1` even in the
right-associative equal-precedence case, so that recursive call returns
immediately and `^` effectively folds left-associatively. -/
theorem c1_caret_folds_left_associative :
    exprlib_parse 20 "2 ^ 3 ^ 2" emptyCtx g0 .success
      = some (some (.num 64), [], .success)
    ∧ exprlib_evaluate (.num 64) emptyCtx g0 .success
      = some (64, .success, [])
    ∧ exprlib_parse 20 "2 + 3 * 4" emptyCtx g0 .success
      = some (some (.num 14), [], .success)
    ∧ get_precedence '+' = 10 ∧ get_precedence '-' = 10
    ∧ get_precedence '*' = 20 ∧ get_precedence '/' = 20
    ∧ get_precedence '^' = 30
    ∧ is_right_associative '^' = true
    ∧ is_right_associative '+' = false ∧ is_right_associative '-' = false
    ∧ is_right_associative '*' = false ∧ is_right_associative '/' = false
    ∧ (64 : ℚ) ≠ 512 := by
  refine ⟨?_, ?_, ?_, by decide, by decide, by decide, by decide, by decide,
    by decide, by decide, by decide, by decide, by decide, by norm_num⟩
  · simp [exprlib_parse, parse_internal, parse_unary, parse_binary_rhs,
      parse_args, parse_number, scanInt, scanFrac, scanIdent, skipSpaces,
      headD0, get_precedence, is_right_associative, fold_binop, cpow,
      is_defined_variable, isDigitChar, isAlphaChar, isIdentChar, emptyCtx, g0]
    try norm_num
  · simp [exprlib_evaluate, evaluate_node]
  · simp [exprlib_parse, parse_internal, parse_unary, parse_binary_rhs,
      parse_args, parse_number, scanInt, scanFrac, scanIdent, skipSpaces,
      headD0, get_precedence, is_right_associative, fold_binop, cpow,
      is_defined_variable, isDigitChar, isAlphaChar, isIdentChar, emptyCtx, g0]
    try norm_num

/-- Claim C2 (code bug in the repository).  Evaluating
`nCr(1 / z, 2)` with `z = 0.0`: the first argument fails with
DivisionByZero (second conjunct), yet the FunctionCall case of
`evaluate_node` performs no error check after the argument loop and the
native `nCr` IS invoked — it appears in the invocation trace and even
overwrites the error with InvalidArgument.  The claim says the native
function is never invoked after an argument failure. -/
theorem c2_native_invoked_after_argument_failure :
    exprlib_evaluate (.call "nCr" [.op '/' (.num 1) (.var "z"), .num 2])
        ctxZ gNCr .success = some (0, .invalidArgument, ["nCr"])
    ∧ evaluate_node (.op '/' (.num 1) (.var "z")) ctxZ gNCr .success
        = some (0, .divisionByZero, []) := by
  constructor
  · simp [exprlib_evaluate, evaluate_node, eval_args, eval_apply_op,
      find_function, nCr_fn, fact_value, c_trunc, cpow, ctxZ, gNCr]
    try norm_num
  · simp [evaluate_node, eval_apply_op, ctxZ, gNCr]
    try norm_num

/-- Claim C3 (code bug in the repository).  Evaluating
`min(1 / z, w)` with `z = 0.0` bound and `w` unbound: the first failing
sub-operation is the division by zero (second conjunct, DivisionByZero),
but the call reports UndefinedVariable — the FunctionCall argument loop of
`evaluate_node` keeps evaluating after a failure, so the later failing
argument overwrites the first error, contradicting the claim that the
error is never changed after the first failure. -/
theorem c3_first_error_overwritten_in_function_call :
    exprlib_evaluate (.call "min" [.op '/' (.num 1) (.var "z"), .var "w"])
        ctxZ gMinMax .success = some (0, .undefinedVariable, ["min"])
    ∧ evaluate_node (.op '/' (.num 1) (.var "z")) ctxZ gMinMax .success
        = some (0, .divisionByZero, []) := by
  constructor
  · simp [exprlib_evaluate, evaluate_node, eval_args, eval_apply_op,
      find_function, fn_min, ctxZ, gMinMax]
    try norm_num
  · simp [evaluate_node, eval_apply_op, ctxZ, gMinMax]
    try norm_num

/-- Claim C4.  Division by an exactly zero literal fails the parse itself
with DivisionByZero (generically at the constant-fold switch, and
concretely for `"1 / 0"`, which returns no AST), while `"1 / z"` with
`z` in the context parses successfully to an Operator node and fails only
at evaluation time with the same DivisionByZero kind (generically at the
evaluator's operator switch and concretely on the parsed AST). -/
theorem c4_division_by_zero_parse_time_vs_eval_time :
    (∀ (l : ℚ) (e : ExprLibError),
        fold_binop '/' l 0 e = (none, .divisionByZero))
    ∧ (∀ (l : ℚ) (e : ExprLibError),
        eval_apply_op '/' l 0 e = (0, .divisionByZero))
    ∧ exprlib_parse 20 "1 / 0" emptyCtx g0 .success
        = some (none, [], .divisionByZero)
    ∧ exprlib_parse 20 "1 / z" ctxZ g0 .success
        = some (some (.op '/' (.num 1) (.var "z")), [], .success)
    ∧ exprlib_evaluate (.op '/' (.num 1) (.var "z")) ctxZ g0 .success
        = some (0, .divisionByZero, []) := by
  refine ⟨fun l e => by simp [fold_binop], fun l e => by simp [eval_apply_op],
    ?_, ?_, ?_⟩
  · simp [exprlib_parse, parse_internal, parse_unary, parse_binary_rhs,
      parse_args, parse_number, scanInt, scanFrac, scanIdent, skipSpaces,
      headD0, get_precedence, is_right_associative, fold_binop, cpow,
      is_defined_variable, isDigitChar, isAlphaChar, isIdentChar, emptyCtx, g0]
    try norm_num
  · simp [exprlib_parse, parse_internal, parse_unary, parse_binary_rhs,
      parse_args, parse_number, scanInt, scanFrac, scanIdent, skipSpaces,
      headD0, get_precedence, is_right_associative, fold_binop, cpow,
      is_defined_variable, isDigitChar, isAlphaChar, isIdentChar, ctxZ, g0]
    try norm_num
  · simp [exprlib_evaluate, evaluate_node, eval_apply_op, ctxZ, g0]
    try norm_num

/-- Claim C5.  Whenever both operands of a binary combination are literal
Number nodes, the parser folds them via `fold_binop` (visible in
`parse_binary_rhs`), and for every operator and operands the fold agrees
with the evaluator's operator semantics: a successful fold produces the
value (and error state) that evaluating the unfolded operator tree would,
and the folded Number node evaluates to that same value; a failing fold
fails with the same error the evaluator would produce.  The concrete
conjunct shows the parser indeed emits the folded Number node. -/
theorem c5_constant_folding_refines_evaluator (op : Char) (a b : ℚ)
    (ctx : ExprContext) (g : Globals) :
    (∀ v e, fold_binop op a b .success = (some v, e) →
        evaluate_node (.op op (.num a) (.num b)) ctx g .success
            = some (v, e, [])
          ∧ evaluate_node (.num v) ctx g e = some (v, e, []))
    ∧ (∀ e, fold_binop op a b .success = (none, e) →
        evaluate_node (.op op (.num a) (.num b)) ctx g .success
          = some (0, e, []))
    ∧ exprlib_parse 20 "2 * 3" emptyCtx g0 .success
        = some (some (.num 6), [], .success) := by
  refine ⟨fun v e h => ?_, fun e h => ?_, ?_⟩
  · have ha := eval_apply_op_of_fold_some op a b v .success e h
    exact ⟨by simp [evaluate_node, ha], by simp [evaluate_node]⟩
  · have ha := eval_apply_op_of_fold_none op a b .success e h
    simp [evaluate_node, ha]
  · simp [exprlib_parse, parse_internal, parse_unary, parse_binary_rhs,
      parse_args, parse_number, scanInt, scanFrac, scanIdent, skipSpaces,
      headD0, get_precedence, is_right_associative, fold_binop, cpow,
      is_defined_variable, isDigitChar, isAlphaChar, isIdentChar, emptyCtx, g0]
    try norm_num

/-- Witness for C5 at `op = '+'`, `a = 1`, `b = 2`. -/
theorem c5_constant_folding_refines_evaluator_witness :
    evaluate_node (.op '+' (.num 1) (.num 2)) emptyCtx g0 .success
        = some (3, .success, [])
    ∧ evaluate_node (.num 3) emptyCtx g0 .success = some (3, .success, []) :=
  (c5_constant_folding_refines_evaluator '+' 1 2 emptyCtx g0).1 3 .success
    (by simp [fold_binop]; norm_num)

/-- Claim C6.  For every registry and every name already present in it
(registered with a non-empty name, as `exprlib_register_function` itself
guarantees, and re-registered with a legal arity), a second registration
with that name returns false with DuplicateFunction, leaves the registry
unchanged entry-for-entry and in order, and a subsequent `find_function`
on the resulting registry still returns the originally registered entry
(which is also exactly the lookup function-call dispatch uses). -/
theorem c6_duplicate_registration_rejected (funcs : List ExprLibFunction)
    (name : String) (arity : Int) (fn : ExprLibFnPtr) (err : ExprLibError)
    (entry : ExprLibFunction)
    (hname : ¬ name = "") (harity : -1 ≤ arity)
    (hfind : find_function name funcs = some entry) :
    exprlib_register_function name arity fn funcs err
        = (false, funcs, .duplicateFunction)
    ∧ find_function name
        (exprlib_register_function name arity fn funcs err).2.1
      = some entry := by
  have hfind2 : funcs.find? (fun f => f.name == name) = some entry := hfind
  have hmem : entry ∈ funcs := List.mem_of_find?_eq_some hfind2
  have hpred := List.find?_some hfind2
  have hany : funcs.any (fun f => f.name == name) = true :=
    List.any_eq_true.mpr ⟨entry, hmem, hpred⟩
  have hreg : exprlib_register_function name arity fn funcs err
      = (false, funcs, .duplicateFunction) := by
    unfold exprlib_register_function
    rw [if_neg hname, if_neg (by omega), if_pos hany]
  exact ⟨hreg, by rw [hreg]; exact hfind⟩

/-- Witness for C6: re-registering `"f"` over a one-entry registry. -/
theorem c6_duplicate_registration_rejected_witness :
    exprlib_register_function "f" 2 constZeroFn funcs0 .success
        = (false, funcs0, .duplicateFunction)
    ∧ find_function "f"
        (exprlib_register_function "f" 2 constZeroFn funcs0 .success).2.1
      = some ⟨"f", 1, constZeroFn⟩ :=
  c6_duplicate_registration_rejected funcs0 "f" 2 constZeroFn .success
    ⟨"f", 1, constZeroFn⟩ (by decide) (by decide) rfl

/-- Claim C8.  Evaluating a FunctionCall node whose registered function
has a fixed arity different from the argument count fails with
SyntaxError; the empty invocation trace shows no native function ran (the
arity check precedes argument evaluation, so not even argument-level
natives run). -/
theorem c8_arity_mismatch_fails_without_invoking (name : String)
    (args : List ExprNode) (ctx : ExprContext) (g : Globals)
    (err : ExprLibError) (f : ExprLibFunction)
    (hf : find_function name g.functions = some f)
    (hfix : f.arity ≠ -1) (hmis : f.arity ≠ (args.length : Int)) :
    evaluate_node (.call name args) ctx g err = some (0, .synErr, []) := by
  rw [evaluate_node, hf]
  simp [hfix, hmis]

/-- Witness for C8: calling the 2-arity `pow` with one argument. -/
theorem c8_arity_mismatch_fails_without_invoking_witness :
    evaluate_node (.call "pow" [.num 1]) emptyCtx gPow .success
      = some (0, .synErr, []) :=
  c8_arity_mismatch_fails_without_invoking "pow" [.num 1] emptyCtx gPow
    .success ⟨"pow", 2, fn_pow⟩ rfl (by decide) (by decide)

/-- Claim C9.  `fn_min`/`fn_max` on any non-empty argument list return an
element of the list that bounds every argument from below (respectively
above), and on an empty list they abort on the failed `assert(n >= 1)`
(outcome `none`) rather than returning a value; consequently evaluating a
zero-argument call of the variadic `min` or `max` through `evaluate_node`
aborts rather than producing a result. -/
theorem c9_min_max_variadic_behaviour :
    (∀ (x : ℚ) (xs : List ℚ) (err : ExprLibError), ∃ m,
        fn_min (x :: xs) err = some (m, err)
          ∧ m ∈ x :: xs ∧ ∀ y ∈ x :: xs, m ≤ y)
    ∧ (∀ (x : ℚ) (xs : List ℚ) (err : ExprLibError), ∃ m,
        fn_max (x :: xs) err = some (m, err)
          ∧ m ∈ x :: xs ∧ ∀ y ∈ x :: xs, y ≤ m)
    ∧ (∀ err, fn_min [] err = none)
    ∧ (∀ err, fn_max [] err = none)
    ∧ evaluate_node (.call "min" []) emptyCtx gMinMax .success = none
    ∧ evaluate_node (.call "max" []) emptyCtx gMinMax .success = none := by
  refine ⟨fun x xs err => ?_, fun x xs err => ?_, fun err => rfl,
    fun err => rfl, ?_, ?_⟩
  · refine ⟨xs.foldl (fun m v => if v < m then v else m) x, rfl,
      foldl_min_mem xs x, fun y hy => ?_⟩
    rcases List.mem_cons.mp hy with rfl | hy2
    · exact (foldl_min_le xs y).1
    · exact (foldl_min_le xs x).2 y hy2
  · refine ⟨xs.foldl (fun m v => if m < v then v else m) x, rfl,
      foldl_max_mem xs x, fun y hy => ?_⟩
    rcases List.mem_cons.mp hy with rfl | hy2
    · exact (foldl_max_le xs y).1
    · exact (foldl_max_le xs x).2 y hy2
  · simp [evaluate_node, eval_args, find_function, fn_min, emptyCtx, gMinMax]
  · simp [evaluate_node, eval_args, find_function, fn_max, emptyCtx, gMinMax]

/-- Witness for C9: `min(2, 1)`. -/
theorem c9_min_max_variadic_behaviour_witness :
    ∃ m, fn_min (2 :: [1]) .success = some (m, .success)
      ∧ m ∈ 2 :: [1] ∧ ∀ y ∈ 2 :: [1], m ≤ (y : ℚ) :=
  c9_min_max_variadic_behaviour.1 2 [1] .success

/-- Claim C7, amended.  Whenever the parser reaches a bare identifier —
here, an expression beginning with one — that is not followed by `(` and
names neither a registered constant nor a context variable, `exprlib_parse`
fails with UndefinedVariable and returns no AST.  (The claim as stated,
over every expression merely containing such an identifier, is refuted by
`c7_counterexample_unreached_identifier`: trailing input after a complete
expression is never parsed.) -/
theorem c7_undefined_identifier_reached_fails (fuel : Nat) (c : Char)
    (nm rest : List Char) (ctx : ExprContext) (g : Globals)
    (err : ExprLibError)
    (halpha : isAlphaChar c = true)
    (hident : ∀ d ∈ c :: nm, isIdentChar d = true)
    (hstop : isIdentChar (headD0 rest) = false)
    (hnp : headD0 (skipSpaces rest) ≠ '(')
    (hundef : is_defined_variable (String.mk (c :: nm)) ctx g = false) :
    exprlib_parse (fuel + 2) (String.mk (c :: (nm ++ rest))) ctx g err
      = some (none, rest, .undefinedVariable) := by
  have hu := parse_unary_undefined_identifier fuel c nm rest ctx g
    .success halpha hident hstop hnp hundef
  have htl : (String.mk (c :: (nm ++ rest))).toList = c :: (nm ++ rest) := rfl
  rw [exprlib_parse, htl, parse_internal, hu]

/-- Witness for C7: the spec's example `"a + 2"` with an empty
context. -/
theorem c7_undefined_identifier_reached_fails_witness :
    exprlib_parse 12 "a + 2" emptyCtx g0 .success
      = some (none, [' ', '+', ' ', '2'], .undefinedVariable) :=
  c7_undefined_identifier_reached_fails 10 'a' [] [' ', '+', ' ', '2']
    emptyCtx g0 .success (by decide) (by decide) (by decide) (by decide)
    (by decide)

/-- Counterexample to C7 as stated: `"1 z"` contains the bare
identifier `z`, not followed by `(` and defined neither as a constant nor
as a context variable, yet `exprlib_parse` succeeds with the AST of the
prefix `1` and error Success. -/
theorem c7_counterexample_unreached_identifier :
    exprlib_parse 20 "1 z" emptyCtx g0 .success
      = some (some (.num 1), ['z'], .success)
    ∧ is_defined_variable "z" emptyCtx g0 = false := by
  constructor
  · simp [exprlib_parse, parse_internal, parse_unary, parse_binary_rhs,
      parse_args, parse_number, scanInt, scanFrac, scanIdent, skipSpaces,
      headD0, get_precedence, is_right_associative, fold_binop, cpow,
      is_defined_variable, isDigitChar, isAlphaChar, isIdentChar, emptyCtx, g0]
    try norm_num
  · decide

/-- Claim C10.  `exprlib_parse` does not require the whole input to be
consumed: if the unary item parses leaving a remainder whose first
non-space character is not a binary operator (precedence -1), the parse
returns that prefix's AST with no error, silently ignoring the rest. -/
theorem c10_trailing_input_ignored (fuel : Nat) (s rest0 : List Char)
    (node : ExprNode) (ctx : ExprContext) (g : Globals) (err : ExprLibError)
    (hu : parse_unary (fuel + 1) s ctx g .success
      = some (some node, rest0, .success))
    (hop : get_precedence (headD0 (skipSpaces rest0)) < 0) :
    exprlib_parse (fuel + 2) (String.mk s) ctx g err
      = some (some node, skipSpaces rest0, .success) := by
  have htl : (String.mk s).toList = s := rfl
  rw [exprlib_parse, htl, parse_internal, hu]
  simp [parse_binary_rhs, hop]

/-- Witness for C10: the claim's own example, `"1 2"` parses as the number
1 with no error, the trailing `2` ignored. -/
theorem c10_trailing_input_ignored_witness :
    exprlib_parse 12 "1 2" emptyCtx g0 .success
      = some (some (.num 1), ['2'], .success) :=
  c10_trailing_input_ignored 10 "1 2".toList [' ', '2'] (.num 1) emptyCtx g0
    .success
    (by simp [parse_unary, parse_number, scanInt, scanFrac, skipSpaces,
      headD0, isDigitChar, isAlphaChar, isIdentChar]) (by decide)
